import Mathlib

/-!
# Memey — verification of the trigger controller and asset resolution

Shallow embedding of the Memey repository (an emotion-driven meme
application).  The core is the trigger state machine in `src/main.py`
(`Memey._process_emotion`, `Memey._trigger_meme`, `Memey._handle_key`),
plus asset resolution in `src/meme_manager.py` (`get_random_meme`) and
`src/audio_player.py` (`play_emotion_sound`, `set_volume`).

Times and confidences are modelled as rationals; labels as strings; the
caches of the asset libraries as association lists (preserving the
insertion order that Python dict iteration follows).
-/

namespace Memey

/-- Read-only configuration of the controller, as set in `Memey.__init__`:
`confidence_threshold = 0.4`, `emotion_hold_time = 2.0`, `meme_cooldown = 5.0`. -/
structure Config where
  confidence_threshold : ℚ
  emotion_hold_time : ℚ
  meme_cooldown : ℚ
deriving DecidableEq, Repr

/-- The default configuration from `Memey.__init__`. -/
def defaultConfig : Config :=
  { confidence_threshold := 4/10, emotion_hold_time := 2, meme_cooldown := 5 }

/-- Mutable state of the trigger controller (`Memey.__init__`, "State tracking"):
`current_emotion`, `emotion_start_time`, `meme_triggered`, `last_meme_time`. -/
structure State where
  current_emotion : String
  emotion_start_time : Option ℚ
  meme_triggered : Bool
  last_meme_time : ℚ
deriving DecidableEq, Repr

/-- Initial state: `current_emotion = "neutral"`, `emotion_start_time = None`,
`meme_triggered = False`, `last_meme_time = 0`. -/
def initState : State :=
  { current_emotion := "neutral", emotion_start_time := none,
    meme_triggered := false, last_meme_time := 0 }

/-- One observation fed to `_process_emotion`: the detected label, its
confidence, and the wall-clock time `time.time()` of the call. -/
structure Obs where
  label : String
  conf : ℚ
  time : ℚ
deriving DecidableEq, Repr

/-- The confidence-threshold coercion at the top of `_process_emotion`:
`if confidence < self.confidence_threshold: emotion = "neutral"`. -/
def coerce_label (cfg : Config) (o : Obs) : String :=
  if o.conf < cfg.confidence_threshold then "neutral" else o.label

/-- The cooldown test of `_process_emotion`:
`(current_time - self.last_meme_time) >= self.meme_cooldown`. -/
abbrev cooldown_ok (cfg : Config) (s : State) (now : ℚ) : Prop :=
  now - s.last_meme_time ≥ cfg.meme_cooldown

/-- `Memey._trigger_meme`'s state effect: sets `meme_triggered = True` and
`last_meme_time = time.time()`.  (Display and sound are external side
effects carried by the returned event, not by the state.) -/
def trigger_meme (s : State) (now : ℚ) : State :=
  { s with meme_triggered := true, last_meme_time := now }

/-- The body of `_process_emotion` after the confidence coercion, acting on
the already-coerced label.  Returns the new state and the trigger event
(label and time) if one fired. -/
def step_coerced (cfg : Config) (s : State) (emotion : String) (now : ℚ) :
    State × Option (String × ℚ) :=
  if emotion ≠ s.current_emotion then
    ({ s with current_emotion := emotion, emotion_start_time := some now,
              meme_triggered := false }, none)
  else
    match s.emotion_start_time with
    | none => ({ s with emotion_start_time := some now }, none)
    | some start =>
      if emotion ≠ "neutral" ∧ now - start ≥ cfg.emotion_hold_time ∧
          s.meme_triggered = false ∧ cooldown_ok cfg s now then
        (trigger_meme s now, some (emotion, now))
      else
        (s, none)

/-- `Memey._process_emotion(emotion, confidence)` at time `o.time`. -/
def process_emotion (cfg : Config) (s : State) (o : Obs) :
    State × Option (String × ℚ) :=
  step_coerced cfg s (coerce_label cfg o) o.time

/-- The `M` key branch of `Memey._handle_key`: picks the current detected
emotion, falling back to `"happy"` when it is `"neutral"`, and calls
`_trigger_meme`, which emits the event and updates the state. -/
def force_trigger (s : State) (current_emotion : String) (now : ℚ) :
    State × (String × ℚ) :=
  let emotion := if current_emotion ≠ "neutral" then current_emotion else "happy"
  (trigger_meme s now, (emotion, now))

/-- Run the controller over a list of observations, collecting the trigger
events that `_process_emotion` fires, in order. -/
def fires_from (cfg : Config) : State → List Obs → List (String × ℚ)
  | _, [] => []
  | s, o :: rest =>
    (process_emotion cfg s o).2.toList ++ fires_from cfg (process_emotion cfg s o).1 rest

/-- An uninterrupted same-label episode: every observation's coerced label
equals the label the controller is currently tracking, so the
label-change reset branch is never taken during the run. -/
def same_label_run (cfg : Config) : State → List Obs → Bool
  | _, [] => true
  | s, o :: rest =>
    decide (coerce_label cfg o = s.current_emotion) &&
      same_label_run cfg (process_emotion cfg s o).1 rest

end Memey

namespace StrUtil

/-- ASCII lowercase of one character, as Python's `str.lower()` acts on the
ASCII emotion labels this program uses. -/
def char_lower (c : Char) : Char :=
  if 'A' ≤ c ∧ c ≤ 'Z' then Char.ofNat (c.toNat + 32) else c

/-- Python's `str.lower()` on a label (ASCII model). -/
def lower (s : String) : String :=
  String.mk (s.data.map char_lower)

end StrUtil

namespace MemeManager

/-- Whether `needle` occurs as a contiguous substring at the head of `hay`
(character lists), modelling the start of a Python `in` scan. -/
def chars_head_match : List Char → List Char → Bool
  | [], _ => true
  | _ :: _, [] => false
  | a :: as, b :: bs => a == b && chars_head_match as bs

/-- Whether `needle` occurs as a contiguous substring of `hay`
(character lists). -/
def chars_sub (needle : List Char) : List Char → Bool
  | [] => needle.isEmpty
  | b :: bs => chars_head_match needle (b :: bs) || chars_sub needle bs

/-- Python's `needle in hay` substring containment on strings. -/
def str_contains (hay needle : String) : Bool :=
  chars_sub needle.toList hay.toList

/-- An asset cache: emotion key (already lowercased at load time) paired
with its bucket of assets, in insertion order. -/
abbrev ImageCache := List (String × List String)

/-- Python `emotion in cache` + `cache[emotion]` lookup on the model. -/
def lookup (cache : ImageCache) (e : String) : Option (List String) :=
  (cache.find? fun p => p.1 = e).map Prod.snd

/-- The neutral fallback of `MemeManager.get_random_meme`:
`if 'neutral' in self.meme_cache and self.meme_cache['neutral']`. -/
def neutral_fallback (cache : ImageCache) : Option (List String) :=
  match lookup cache "neutral" with
  | some ms => if ms.isEmpty then none else some ms
  | none => none

/-- `MemeManager.get_random_meme(emotion)`: lowercases the label, returns a
random member of the exact-match bucket when it is present and nonempty,
otherwise a random member of the neutral bucket when present and nonempty,
otherwise `None`.  The random draw is inside a fixed bucket, so the
resolution is modelled as returning the chosen bucket. -/
def get_random_meme (cache : ImageCache) (emotion : String) :
    Option (List String) :=
  let e := StrUtil.lower emotion
  match lookup cache e with
  | some ms => if ms.isEmpty then neutral_fallback cache else some ms
  | none => neutral_fallback cache

end MemeManager

namespace AudioPlayer

/-- An audio cache: emotion key (lowercased filename stem) paired with its
sound path, in insertion order. -/
abbrev SoundCache := List (String × String)

/-- The resolution part of `AudioPlayer.play_emotion_sound(emotion)`:
lowercases the label; on an exact cache hit plays that sound; otherwise
scans the cache in order for a bidirectional-substring partial match
(`emotion in cached_emotion or cached_emotion in emotion`); otherwise
returns without playing anything.  Returns the path played, if any. -/
def play_emotion_sound (cache : SoundCache) (emotion : String) :
    Option String :=
  let e := StrUtil.lower emotion
  match cache.find? (fun p => p.1 = e) with
  | some p => some p.2
  | none =>
    match cache.find?
        (fun p => MemeManager.str_contains p.1 e || MemeManager.str_contains e p.1) with
    | some p => some p.2
    | none => none

/-- `AudioPlayer.set_volume(volume)`: the value handed to
`pygame.mixer.music.set_volume` is `max(0.0, min(1.0, volume))`. -/
def set_volume (volume : ℚ) : ℚ :=
  max 0 (min 1 volume)

end AudioPlayer

namespace SpecResolution

/-- The three-tier resolution policy exactly as §4.2 of the spec words it,
for image buckets: exact case-insensitive match, then bidirectional
substring match against the known labels, then the neutral bucket, then
none.  (Written from the spec to be compared with the source's
`get_random_meme`; a tier hits only on a nonempty bucket, matching
"one-or-more display assets".) -/
def resolve_image (cache : MemeManager.ImageCache) (label : String) :
    Option (List String) :=
  let e := StrUtil.lower label
  match cache.find? (fun p => p.1 = e && !p.2.isEmpty) with
  | some p => some p.2
  | none =>
    match cache.find?
        (fun p => (MemeManager.str_contains p.1 e || MemeManager.str_contains e p.1)
          && !p.2.isEmpty) with
    | some p => some p.2
    | none => MemeManager.neutral_fallback cache

/-- The three-tier resolution policy exactly as §4.2 of the spec words it,
for sounds: exact case-insensitive match, then bidirectional substring
match, then the neutral bucket, then none.  (Written from the spec to be
compared with the source's `play_emotion_sound`.) -/
def resolve_sound (cache : AudioPlayer.SoundCache) (label : String) :
    Option String :=
  let e := StrUtil.lower label
  match cache.find? (fun p => p.1 = e) with
  | some p => some p.2
  | none =>
    match cache.find?
        (fun p => MemeManager.str_contains p.1 e || MemeManager.str_contains e p.1) with
    | some p => some p.2
    | none => (cache.find? fun p => p.1 = "neutral").map Prod.snd

/-- A two-tier resolver: try the first tier, else the second. -/
def two_tier (t1 t2 : Option α) : Option α :=
  t1.rec t2 some

/-- Exact-match tier for image buckets, hitting only nonempty buckets. -/
def image_exact_tier (cache : MemeManager.ImageCache) (label : String) :
    Option (List String) :=
  match (cache.find? fun p => p.1 = StrUtil.lower label).map Prod.snd with
  | some ms => if ms.isEmpty then none else some ms
  | none => none

/-- Exact-match tier for sounds. -/
def sound_exact_tier (cache : AudioPlayer.SoundCache) (label : String) :
    Option String :=
  (cache.find? fun p => p.1 = StrUtil.lower label).map Prod.snd

/-- Bidirectional-substring tier for sounds. -/
def sound_substring_tier (cache : AudioPlayer.SoundCache) (label : String) :
    Option String :=
  (cache.find? fun p =>
    MemeManager.str_contains p.1 (StrUtil.lower label)
      || MemeManager.str_contains (StrUtil.lower label) p.1).map Prod.snd

end SpecResolution

/-! ## Structural lemmas about a single `_process_emotion` step -/

namespace Memey

/-- The label-change branch of `_process_emotion`: resets the episode and
does not fire. -/
theorem step_coerced_reset (cfg : Config) (s : State) (e : String) (now : ℚ)
    (h : e ≠ s.current_emotion) :
    step_coerced cfg s e now =
      ({ s with current_emotion := e, emotion_start_time := some now,
                meme_triggered := false }, none) := by
  simp [step_coerced, h]

/-- Everything the fire branch of `_process_emotion` guarantees: the event
carries the coerced label and the call time; the label matches the tracked
episode and is not neutral; the hold, `triggered` and cooldown tests all
passed; and the new state is exactly `trigger_meme`'s update. -/
theorem step_coerced_fire_inv (cfg : Config) (s : State) (e : String) (now : ℚ)
    (ev : String × ℚ) (h : (step_coerced cfg s e now).2 = some ev) :
    ev = (e, now) ∧ e = s.current_emotion ∧ e ≠ "neutral" ∧
    (∃ st, s.emotion_start_time = some st ∧ now - st ≥ cfg.emotion_hold_time) ∧
    s.meme_triggered = false ∧ cooldown_ok cfg s now ∧
    (step_coerced cfg s e now).1 = trigger_meme s now := by
  unfold step_coerced at h ⊢
  split at h
  · simp at h
  · rename_i hsame
    split at h
    · simp at h
    · rename_i st hst
      split at h
      · rename_i hcond
        simp only [Option.some.injEq] at h
        have he := not_not.mp hsame
        have hn : s.current_emotion ≠ "neutral" := he ▸ hcond.1
        refine ⟨h.symm, he, hcond.1, ⟨st, hst, hcond.2.1⟩, hcond.2.2.1, hcond.2.2.2, ?_⟩
        simp [hst, hcond, he, hn]
      · simp at h

/-- A step that does not fire leaves `last_meme_time` untouched, whatever
branch it took. -/
theorem step_coerced_no_fire_last (cfg : Config) (s : State) (e : String)
    (now : ℚ) (h : (step_coerced cfg s e now).2 = none) :
    (step_coerced cfg s e now).1.last_meme_time = s.last_meme_time := by
  unfold step_coerced
  split
  · rfl
  · split
    · rfl
    · split
      · rename_i hcond
        unfold step_coerced at h
        simp_all
      · rfl

/-- A same-label step that does not fire preserves the tracked label, the
`meme_triggered` flag, `last_meme_time`, and any already-set episode start
time. -/
theorem step_coerced_same_no_fire (cfg : Config) (s : State) (e : String)
    (now : ℚ) (hsame : e = s.current_emotion)
    (h : (step_coerced cfg s e now).2 = none) :
    (step_coerced cfg s e now).1.current_emotion = s.current_emotion ∧
    (step_coerced cfg s e now).1.meme_triggered = s.meme_triggered ∧
    (step_coerced cfg s e now).1.last_meme_time = s.last_meme_time ∧
    ∀ st, s.emotion_start_time = some st →
      (step_coerced cfg s e now).1.emotion_start_time = some st := by
  unfold step_coerced
  split
  · rename_i hne
    exact absurd hsame hne
  · split
    · rename_i hnone
      exact ⟨rfl, rfl, rfl, fun st hst => by rw [hnone] at hst; cases hst⟩
    · rename_i st hst
      split
      · rename_i hcond
        unfold step_coerced at h
        simp_all
      · exact ⟨rfl, rfl, rfl, fun st' hst' => by rw [hst] at hst'; exact hst ▸ hst'⟩

/-- A step from a state whose `meme_triggered` flag is set and whose coerced
label matches the tracked one never fires, and keeps the flag set. -/
theorem step_coerced_triggered_no_fire (cfg : Config) (s : State) (e : String)
    (now : ℚ) (hsame : e = s.current_emotion) (ht : s.meme_triggered = true) :
    (step_coerced cfg s e now).2 = none ∧
    (step_coerced cfg s e now).1.meme_triggered = true := by
  unfold step_coerced
  split
  · rename_i hne
    exact absurd hsame hne
  · split
    · exact ⟨rfl, ht⟩
    · split
      · rename_i hcond
        rw [ht] at hcond
        simp at hcond
      · exact ⟨rfl, ht⟩

/-- A coerced-neutral step never fires. -/
theorem step_coerced_neutral_no_fire (cfg : Config) (s : State) (now : ℚ) :
    (step_coerced cfg s "neutral" now).2 = none := by
  unfold step_coerced
  split
  · rfl
  · split
    · rfl
    · split
      · rename_i hcond
        simp at hcond
      · rfl

end Memey

namespace Memey

/-- `process_emotion`-level restatement of the fire-branch description. -/
theorem process_emotion_fire_inv (cfg : Config) (s : State) (o : Obs)
    (ev : String × ℚ) (h : (process_emotion cfg s o).2 = some ev) :
    ev = (coerce_label cfg o, o.time) ∧ coerce_label cfg o = s.current_emotion ∧
    coerce_label cfg o ≠ "neutral" ∧
    (∃ st, s.emotion_start_time = some st ∧
      o.time - st ≥ cfg.emotion_hold_time) ∧
    s.meme_triggered = false ∧ cooldown_ok cfg s o.time ∧
    (process_emotion cfg s o).1 = trigger_meme s o.time :=
  step_coerced_fire_inv cfg s (coerce_label cfg o) o.time ev h

/-- `process_emotion`-level restatement: a non-firing step keeps
`last_meme_time`. -/
theorem process_emotion_no_fire_last (cfg : Config) (s : State) (o : Obs)
    (h : (process_emotion cfg s o).2 = none) :
    (process_emotion cfg s o).1.last_meme_time = s.last_meme_time :=
  step_coerced_no_fire_last cfg s (coerce_label cfg o) o.time h

/-- If a run fires at all, its first fire is at least `meme_cooldown` after
the `last_meme_time` the run started from. -/
theorem fires_from_head_cooldown (cfg : Config) :
    ∀ (obs : List Obs) (s : State) (ev : String × ℚ),
      (fires_from cfg s obs).head? = some ev →
      ev.2 - s.last_meme_time ≥ cfg.meme_cooldown := by
  intro obs
  induction obs with
  | nil =>
    intro s ev h
    simp [fires_from] at h
  | cons o rest ih =>
    intro s ev h
    rw [fires_from] at h
    cases hev : (process_emotion cfg s o).2 with
    | none =>
      rw [hev] at h
      simp only [Option.toList_none, List.nil_append] at h
      have hl := process_emotion_no_fire_last cfg s o hev
      rw [← hl]
      exact ih (process_emotion cfg s o).1 ev h
    | some ev' =>
      rw [hev] at h
      simp only [Option.toList_some, List.cons_append, List.nil_append,
        List.head?_cons, Option.some.injEq] at h
      obtain ⟨hev', _, _, _, _, hcool, _⟩ := process_emotion_fire_inv cfg s o ev' hev
      rw [← h, hev']
      exact hcool

/-- Consecutive fires of any run are spaced by at least `meme_cooldown`. -/
theorem fires_from_chain (cfg : Config) :
    ∀ (obs : List Obs) (s : State),
      (fires_from cfg s obs).Chain' (fun a b => b.2 - a.2 ≥ cfg.meme_cooldown) := by
  intro obs
  induction obs with
  | nil =>
    intro s
    simp [fires_from]
  | cons o rest ih =>
    intro s
    rw [fires_from]
    cases hev : (process_emotion cfg s o).2 with
    | none =>
      simp only [Option.toList_none, List.nil_append]
      exact ih (process_emotion cfg s o).1
    | some ev =>
      simp only [Option.toList_some, List.cons_append, List.nil_append]
      rw [List.chain'_cons']
      refine ⟨?_, ih (process_emotion cfg s o).1⟩
      intro b hb
      obtain ⟨hevv, _, _, _, _, _, hst⟩ := process_emotion_fire_inv cfg s o ev hev
      have hhead := fires_from_head_cooldown cfg rest (process_emotion cfg s o).1 b hb
      rw [hst] at hhead
      simpa [trigger_meme, hevv] using hhead

/-- Extract the two conjuncts of a `same_label_run` over a cons. -/
theorem same_label_run_cons (cfg : Config) (s : State) (o : Obs)
    (rest : List Obs) (h : same_label_run cfg s (o :: rest) = true) :
    coerce_label cfg o = s.current_emotion ∧
    same_label_run cfg (process_emotion cfg s o).1 rest = true := by
  rw [same_label_run, Bool.and_eq_true, decide_eq_true_eq] at h
  exact h

/-- From a state whose per-episode flag is already set, an uninterrupted
same-label run never fires again. -/
theorem fires_from_triggered (cfg : Config) :
    ∀ (obs : List Obs) (s : State), s.meme_triggered = true →
      same_label_run cfg s obs = true → fires_from cfg s obs = [] := by
  intro obs
  induction obs with
  | nil =>
    intro s _ _
    rfl
  | cons o rest ih =>
    intro s ht h
    obtain ⟨hsame, hrest⟩ := same_label_run_cons cfg s o rest h
    obtain ⟨hnone, ht'⟩ :=
      step_coerced_triggered_no_fire cfg s (coerce_label cfg o) o.time hsame ht
    rw [fires_from]
    have hnone' : (process_emotion cfg s o).2 = none := hnone
    rw [hnone']
    simp only [Option.toList_none, List.nil_append]
    exact ih (process_emotion cfg s o).1 ht' hrest

/-- Any uninterrupted same-label run fires at most once. -/
theorem fires_from_once (cfg : Config) :
    ∀ (obs : List Obs) (s : State), same_label_run cfg s obs = true →
      (fires_from cfg s obs).length ≤ 1 := by
  intro obs
  induction obs with
  | nil =>
    intro s _
    simp [fires_from]
  | cons o rest ih =>
    intro s h
    obtain ⟨hsame, hrest⟩ := same_label_run_cons cfg s o rest h
    rw [fires_from]
    cases hev : (process_emotion cfg s o).2 with
    | none =>
      simp only [Option.toList_none, List.nil_append]
      exact ih (process_emotion cfg s o).1 hrest
    | some ev =>
      obtain ⟨_, _, _, _, _, _, hst⟩ := process_emotion_fire_inv cfg s o ev hev
      have ht' : (process_emotion cfg s o).1.meme_triggered = true := by
        rw [hst]; rfl
      have := fires_from_triggered cfg rest (process_emotion cfg s o).1 ht' hrest
      simp [this]

/-- In an uninterrupted same-label run from a state whose episode started at
`st`, every fire happens at least `emotion_hold_time` after `st`. -/
theorem fires_from_hold (cfg : Config) :
    ∀ (obs : List Obs) (s : State) (st : ℚ),
      s.emotion_start_time = some st →
      same_label_run cfg s obs = true →
      ∀ ev ∈ fires_from cfg s obs, ev.2 - st ≥ cfg.emotion_hold_time := by
  intro obs
  induction obs with
  | nil =>
    intro s st _ _ ev hev
    simp [fires_from] at hev
  | cons o rest ih =>
    intro s st hstart h ev hev
    obtain ⟨hsame, hrest⟩ := same_label_run_cons cfg s o rest h
    rw [fires_from] at hev
    cases hfire : (process_emotion cfg s o).2 with
    | none =>
      rw [hfire] at hev
      simp only [Option.toList_none, List.nil_append] at hev
      have hkeep :=
        step_coerced_same_no_fire cfg s (coerce_label cfg o) o.time hsame hfire
      exact ih (process_emotion cfg s o).1 st (hkeep.2.2.2 st hstart) hrest ev hev
    | some ev' =>
      rw [hfire] at hev
      simp only [Option.toList_some, List.cons_append, List.nil_append,
        List.mem_cons] at hev
      obtain ⟨hevv, _, _, ⟨st', hst', hhold⟩, _, _, hst⟩ :=
        process_emotion_fire_inv cfg s o ev' hfire
      cases hev with
      | inl hev =>
        rw [hst'] at hstart
        cases hstart
        rw [hev, hevv]
        exact hhold
      | inr hev =>
        have hstart' : (process_emotion cfg s o).1.emotion_start_time = some st := by
          rw [hst]
          exact hstart
        exact ih (process_emotion cfg s o).1 st hstart' hrest ev hev

end Memey

/-! ## Claim theorems -/

namespace Memey

/-- C1 counterexample: `force_trigger` does not leave the episode and
cooldown fields unchanged.  From the initial state, forcing a trigger at
time 10 flips `meme_triggered` from false to true and moves
`last_meme_time` from 0 to 10, because `_handle_key` routes through
`_trigger_meme`, which updates both. -/
theorem force_trigger_not_preserving_cex :
    ¬ ((force_trigger initState "happy" 10).1.meme_triggered
          = initState.meme_triggered ∧
       (force_trigger initState "happy" 10).1.last_meme_time
          = initState.last_meme_time) := by
  intro h
  have := h.1
  simp [force_trigger, trigger_meme, initState] at this

/-- C1 (amended): `force_trigger` immediately emits an event for the given
label (falling back to `"happy"` when the label is `"neutral"`) and leaves
`current_emotion` and `emotion_start_time` unchanged, but it does set
`meme_triggered` to true and `last_meme_time` to the call time, because it
goes through `_trigger_meme`. -/
theorem force_trigger_effects (s : State) (lbl : String) (now : ℚ) :
    (force_trigger s lbl now).2
        = ((if lbl ≠ "neutral" then lbl else "happy"), now) ∧
    (force_trigger s lbl now).1.current_emotion = s.current_emotion ∧
    (force_trigger s lbl now).1.emotion_start_time = s.emotion_start_time ∧
    (force_trigger s lbl now).1.meme_triggered = true ∧
    (force_trigger s lbl now).1.last_meme_time = now :=
  ⟨rfl, rfl, rfl, rfl, rfl⟩

/-- C2 counterexample: in the never-fired state the cooldown condition of
`_process_emotion` is NOT satisfied for every observation time: at
`now = 1` with the default 5-second cooldown, `now - last_meme_time =
1 - 0 < 5`, because `last_meme_time` is initialised to `0`, not to a real
"never" sentinel. -/
theorem cooldown_first_fire_cex :
    ¬ cooldown_ok defaultConfig initState 1 := by
  norm_num [cooldown_ok, defaultConfig, initState]

/-- C2 (amended): in the never-fired state (`last_meme_time = 0`), the
cooldown condition of `_process_emotion` is satisfied for every
observation time `now ≥ meme_cooldown` — in particular for every real
wall-clock timestamp — but not for smaller `now`. -/
theorem cooldown_ok_of_never_fired (cfg : Config) (s : State) (now : ℚ)
    (hnever : s.last_meme_time = 0) (hnow : now ≥ cfg.meme_cooldown) :
    cooldown_ok cfg s now := by
  rw [cooldown_ok, hnever]
  linarith

/-- Witness for `cooldown_ok_of_never_fired` at the initial state and
`now = 10`. -/
theorem cooldown_ok_of_never_fired_witness :
    initState.last_meme_time = 0 ∧ (10:ℚ) ≥ defaultConfig.meme_cooldown ∧
    cooldown_ok defaultConfig initState 10 :=
  ⟨rfl, by norm_num [defaultConfig],
    cooldown_ok_of_never_fired defaultConfig initState 10 rfl
      (by norm_num [defaultConfig])⟩

/-- C5: over any uninterrupted same-label episode, the controller fires at
most once: the per-episode `meme_triggered` flag is set by the first fire
and blocks the fire branch until a label change resets it. -/
theorem at_most_one_fire_per_episode (cfg : Config) (s : State)
    (obs : List Obs) (h : same_label_run cfg s obs = true) :
    (fires_from cfg s obs).length ≤ 1 :=
  fires_from_once cfg obs s h

/-- C6: any two consecutive trigger events fired by `_process_emotion` are
separated by at least `meme_cooldown`, for every starting state and every
observation sequence, independent of episode boundaries: the fire branch
requires `now - last_meme_time ≥ meme_cooldown` and each fire resets
`last_meme_time` to its own time. -/
theorem consecutive_fires_spaced (cfg : Config) (s : State) (obs : List Obs) :
    (fires_from cfg s obs).Chain' (fun a b => b.2 - a.2 ≥ cfg.meme_cooldown) :=
  fires_from_chain cfg obs s

/-- C7: an observation with confidence below the threshold is processed
exactly like a `"neutral"` observation with any confidence at the same
time — same resulting state, same (absent) trigger output. -/
theorem low_confidence_is_neutral (cfg : Config) (s : State) (lbl : String)
    (c c' now : ℚ) (h : c < cfg.confidence_threshold) :
    process_emotion cfg s ⟨lbl, c, now⟩
        = process_emotion cfg s ⟨"neutral", c', now⟩ ∧
    (process_emotion cfg s ⟨lbl, c, now⟩).2 = none := by
  have h1 : coerce_label cfg ⟨lbl, c, now⟩ = "neutral" := by
    simp [coerce_label, h]
  have h2 : coerce_label cfg ⟨"neutral", c', now⟩ = "neutral" := by
    unfold coerce_label
    split <;> rfl
  constructor
  · show step_coerced cfg s (coerce_label cfg ⟨lbl, c, now⟩) now
        = step_coerced cfg s (coerce_label cfg ⟨"neutral", c', now⟩) now
    rw [h1, h2]
  · show (step_coerced cfg s (coerce_label cfg ⟨lbl, c, now⟩) now).2 = none
    rw [h1]
    exact step_coerced_neutral_no_fire cfg s now

/-- Witness for `low_confidence_is_neutral`: confidence 1/10 is below the
default threshold 4/10, so a `"happy"` reading at 1/10 behaves like a
`"neutral"` reading at full confidence. -/
theorem low_confidence_is_neutral_witness :
    (1:ℚ)/10 < defaultConfig.confidence_threshold ∧
    (process_emotion defaultConfig initState ⟨"happy", 1/10, 3⟩
        = process_emotion defaultConfig initState ⟨"neutral", 1, 3⟩ ∧
     (process_emotion defaultConfig initState ⟨"happy", 1/10, 3⟩).2 = none) :=
  ⟨by norm_num [defaultConfig],
    low_confidence_is_neutral defaultConfig initState "happy" (1/10) 1 3
      (by norm_num [defaultConfig])⟩

/-- C8: no trigger event ever carries the label `"neutral"`: the fire branch
of `_process_emotion` requires the coerced label to differ from
`"neutral"`, and the manual `force_trigger` falls back to `"happy"`
whenever the current label is `"neutral"`. -/
theorem fired_label_not_neutral (cfg : Config) (s : State) (o : Obs)
    (ev : String × ℚ) (h : (process_emotion cfg s o).2 = some ev) :
    ev.1 ≠ "neutral" ∧
    ∀ (s' : State) (lbl : String) (now : ℚ),
      (force_trigger s' lbl now).2.1 ≠ "neutral" := by
  constructor
  · obtain ⟨hevv, _, hne, _⟩ := process_emotion_fire_inv cfg s o ev h
    rw [hevv]
    exact hne
  · intro s' lbl now
    show (if lbl ≠ "neutral" then lbl else "happy") ≠ "neutral"
    split_ifs with hl
    · exact hl
    · decide

end Memey

namespace AudioPlayer

/-- C10: the volume handed to the audio backend is always clamped into
`[0, 1]`: inputs below 0 become 0, inputs above 1 become 1, and in-range
inputs pass through unchanged. -/
theorem set_volume_clamps (v : ℚ) :
    0 ≤ set_volume v ∧ set_volume v ≤ 1 ∧
    set_volume v = if v < 0 then 0 else if 1 < v then 1 else v := by
  unfold set_volume
  refine ⟨le_max_left _ _, max_le (by norm_num) (min_le_left _ _), ?_⟩
  split_ifs with h1 h2
  · rw [min_eq_right (by linarith : v ≤ 1), max_eq_left (by linarith : v ≤ 0)]
  · rw [min_eq_left (by linarith : (1:ℚ) ≤ v), max_eq_right (by norm_num : (0:ℚ) ≤ 1)]
  · rw [min_eq_right (by linarith : v ≤ 1), max_eq_right (by linarith : (0:ℚ) ≤ v)]

end AudioPlayer

namespace Memey

/-- A state sitting mid-episode on `"happy"` since time 0, never having
fired: used as a concrete run starting point. -/
def fireState : State :=
  { current_emotion := "happy", emotion_start_time := some 0,
    meme_triggered := false, last_meme_time := 0 }

/-- A `"happy"` observation at time 10 with confidence 9/10. -/
def fireObs : Obs := { label := "happy", conf := 9/10, time := 10 }

/-- Witness for `fired_label_not_neutral`: from `fireState`, the observation
`fireObs` fires the event `("happy", 10)`, whose label is not neutral. -/
theorem fired_label_not_neutral_witness :
    (process_emotion defaultConfig fireState fireObs).2 = some ("happy", 10) ∧
    ("happy", (10:ℚ)).1 ≠ "neutral" ∧
    ∀ (s' : State) (lbl : String) (now : ℚ),
      (force_trigger s' lbl now).2.1 ≠ "neutral" := by
  have hs : ("happy":String) ≠ "neutral" := by decide
  have hfire : (process_emotion defaultConfig fireState fireObs).2
      = some ("happy", 10) := by
    norm_num [process_emotion, step_coerced, coerce_label, defaultConfig,
      fireState, fireObs, cooldown_ok, trigger_meme, hs]
  exact ⟨hfire,
    fired_label_not_neutral defaultConfig fireState fireObs ("happy", 10) hfire⟩

/-- Two `"happy"` observations at times 10 and 11, forming one uninterrupted
episode from `fireState` in which the first one fires. -/
def epObs : List Obs := [⟨"happy", 9/10, 10⟩, ⟨"happy", 9/10, 11⟩]

/-- Witness for `at_most_one_fire_per_episode`: the episode `epObs` from
`fireState` is an uninterrupted same-label run, and it fires once. -/
theorem at_most_one_fire_per_episode_witness :
    same_label_run defaultConfig fireState epObs = true ∧
    (fires_from defaultConfig fireState epObs).length ≤ 1 := by
  have hs : ("happy":String) ≠ "neutral" := by decide
  have hrun : same_label_run defaultConfig fireState epObs = true := by
    norm_num [same_label_run, epObs, process_emotion, step_coerced, coerce_label,
      defaultConfig, fireState, cooldown_ok, trigger_meme, hs]
  exact ⟨hrun, at_most_one_fire_per_episode defaultConfig fireState epObs hrun⟩

/-- C9: when the coerced label differs from the tracked one,
`_process_emotion` resets the episode — new label, `emotion_start_time :=
now`, `meme_triggered := false` — and emits nothing; and every fire of a
subsequent uninterrupted run counts its hold from the reset time, so it
happens at least `emotion_hold_time` after it. -/
theorem label_change_resets (cfg : Config) (s : State) (o : Obs)
    (h : coerce_label cfg o ≠ s.current_emotion) :
    process_emotion cfg s o =
      ({ s with current_emotion := coerce_label cfg o,
                emotion_start_time := some o.time, meme_triggered := false },
        none) ∧
    ∀ obs, same_label_run cfg (process_emotion cfg s o).1 obs = true →
      ∀ ev ∈ fires_from cfg (process_emotion cfg s o).1 obs,
        ev.2 - o.time ≥ cfg.emotion_hold_time := by
  have hreset : process_emotion cfg s o =
      ({ s with current_emotion := coerce_label cfg o,
                emotion_start_time := some o.time, meme_triggered := false },
        none) :=
    step_coerced_reset cfg s (coerce_label cfg o) o.time h
  refine ⟨hreset, ?_⟩
  intro obs hrun ev hev
  have hstart : (process_emotion cfg s o).1.emotion_start_time = some o.time := by
    rw [hreset]
  exact fires_from_hold cfg obs (process_emotion cfg s o).1 o.time hstart hrun ev hev

/-- A `"happy"` observation at time 3, differing from the initial
`"neutral"` tracked label. -/
def resetObs : Obs := ⟨"happy", 9/10, 3⟩

/-- Witness for `label_change_resets` at the initial state and `resetObs`. -/
theorem label_change_resets_witness :
    coerce_label defaultConfig resetObs ≠ initState.current_emotion ∧
    (process_emotion defaultConfig initState resetObs =
        ({ initState with
             current_emotion := coerce_label defaultConfig resetObs,
             emotion_start_time := some resetObs.time,
             meme_triggered := false }, none) ∧
     ∀ obs, same_label_run defaultConfig
          (process_emotion defaultConfig initState resetObs).1 obs = true →
        ∀ ev ∈ fires_from defaultConfig
            (process_emotion defaultConfig initState resetObs).1 obs,
          ev.2 - resetObs.time ≥ defaultConfig.emotion_hold_time) := by
  have hs : ("happy":String) ≠ "neutral" := by decide
  have hco : coerce_label defaultConfig resetObs ≠ initState.current_emotion := by
    norm_num [coerce_label, resetObs, defaultConfig, initState, hs]
  exact ⟨hco, label_change_resets defaultConfig initState resetObs hco⟩

/-- The spec's scenario at its literal times: `("happy", 0.9)` at
`t = 0, 0.5, 2.1`. -/
def scenario_lit : List Obs :=
  [⟨"happy", 9/10, 0⟩, ⟨"happy", 9/10, 1/2⟩, ⟨"happy", 9/10, 21/10⟩]

/-- The same scenario shifted to start at time `t0`. -/
def scenario_shift (t0 : ℚ) : List Obs :=
  [⟨"happy", 9/10, t0⟩, ⟨"happy", 9/10, t0 + 1/2⟩, ⟨"happy", 9/10, t0 + 21/10⟩]

/-- C3 counterexample: at the literal times 0, 0.5, 2.1 the code fires
nothing at all — not once at 2.1 — because `last_meme_time` starts at 0
and `2.1 - 0 < 5.0` fails the cooldown test. -/
theorem scenario_literal_cex :
    fires_from defaultConfig initState scenario_lit = [] ∧
    fires_from defaultConfig initState scenario_lit ≠ [("happy", 21/10)] := by
  have hs : ("happy":String) ≠ "neutral" := by decide
  have h : fires_from defaultConfig initState scenario_lit = [] := by
    norm_num [scenario_lit, fires_from, process_emotion, step_coerced,
      coerce_label, defaultConfig, initState, cooldown_ok, trigger_meme, hs]
  refine ⟨h, ?_⟩
  rw [h]
  simp

/-- C3 (amended): the scenario behaves as the spec describes once the base
time is at least `meme_cooldown` (as every real wall-clock timestamp is):
observations at `t0`, `t0 + 0.5`, `t0 + 2.1` fire exactly once, at
`t0 + 2.1`, for `"happy"`. -/
theorem scenario_shifted_fires_once (t0 : ℚ)
    (h : t0 ≥ defaultConfig.meme_cooldown) :
    fires_from defaultConfig initState (scenario_shift t0)
      = [("happy", t0 + 21/10)] := by
  have hs : ("happy":String) ≠ "neutral" := by decide
  have h5 : (5:ℚ) ≤ t0 + 21/10 := by
    norm_num [defaultConfig] at h
    linarith
  norm_num [scenario_shift, fires_from, process_emotion, step_coerced,
    coerce_label, defaultConfig, initState, cooldown_ok, trigger_meme, hs, h5]

/-- Witness for `scenario_shifted_fires_once` at base time 10. -/
theorem scenario_shifted_fires_once_witness :
    (10:ℚ) ≥ defaultConfig.meme_cooldown ∧
    fires_from defaultConfig initState (scenario_shift 10)
      = [("happy", 10 + 21/10)] :=
  ⟨by norm_num [defaultConfig],
    scenario_shifted_fires_once 10 (by norm_num [defaultConfig])⟩

end Memey

namespace SpecResolution

/-- C4 counterexample: neither resolver follows the spec's three tiers.
Image resolution has no substring tier: with only a `"happyface"` bucket
cached, requesting `"happy"` returns nothing although the spec's
three-tier policy finds `"happyface"` by substring match.  Audio
resolution has no neutral-fallback tier: with only a `"neutral"` sound
cached, requesting `"happy"` plays nothing although the spec's three-tier
policy falls back to the neutral sound. -/
theorem resolution_three_tier_cex :
    MemeManager.get_random_meme [("happyface", ["a.png"])] "happy" = none ∧
    resolve_image [("happyface", ["a.png"])] "happy" = some ["a.png"] ∧
    AudioPlayer.play_emotion_sound [("neutral", "n.mp3")] "happy" = none ∧
    resolve_sound [("neutral", "n.mp3")] "happy" = some "n.mp3" := by
  refine ⟨?_, ?_, ?_, ?_⟩ <;> decide

/-- C4 (amended): image resolution proceeds in two tiers — exact
case-insensitive match on a nonempty bucket, then the neutral bucket,
then none — with no substring tier; audio resolution proceeds in two
tiers — exact case-insensitive match, then bidirectional substring
match, then none — with no neutral fallback.  On total miss both return
none and the caller no-ops. -/
theorem resolution_actual_tiers (icache : MemeManager.ImageCache)
    (scache : AudioPlayer.SoundCache) (label : String) :
    MemeManager.get_random_meme icache label =
      two_tier (image_exact_tier icache label)
        (MemeManager.neutral_fallback icache) ∧
    AudioPlayer.play_emotion_sound scache label =
      two_tier (sound_exact_tier scache label)
        (sound_substring_tier scache label) := by
  constructor
  · unfold MemeManager.get_random_meme image_exact_tier two_tier
      MemeManager.lookup
    cases h : icache.find? fun p => p.1 = StrUtil.lower label with
    | none => simp [h]
    | some p =>
      simp only [h, Option.map_some]
      by_cases he : p.2.isEmpty
      · simp [he]
      · simp [he]
  · unfold AudioPlayer.play_emotion_sound sound_exact_tier
      sound_substring_tier two_tier
    cases h : scache.find? fun p => p.1 = StrUtil.lower label with
    | none =>
      simp only [h, Option.map_none]
      cases h2 : scache.find? fun p =>
          MemeManager.str_contains p.1 (StrUtil.lower label)
            || MemeManager.str_contains (StrUtil.lower label) p.1 with
      | none => simp [h2]
      | some q => simp [h2]
    | some p => simp [h]

end SpecResolution
